import Mathlib

/-!
Shallow embedding of the logic-bearing parts of `src/financas/nubank-manual/src/App.js`
(a single-user personal-finance app): the budget calculator `monthSummary`, the
recurrence generator `generateMonth`, the transaction writers (`QuickAdd.submit`,
`Historico.saveEdit`, `Fixos.add`) and the helpers they use (`getSetting`,
`getMonthRangeISO`).  Monetary amounts are modelled as exact rationals; the JS
`NaN` produced by failed numeric conversions is modelled as `Option.none` at the
conversion boundary.  Dates are modelled as the ISO `YYYY-MM-DD` strings the code
actually stores and compares.
-/

namespace Finance

/- ===== Models of the JavaScript numeric-conversion primitives ===== -/

/-- Numeric value of a decimal digit character. -/
def charDigitVal (c : Char) : ℕ := c.toNat - 48

/-- Whether every character of the list is a decimal digit. -/
def allDigits (l : List Char) : Bool := l.all (·.isDigit)

/-- Natural number denoted by a list of decimal digit characters. -/
def natOfDigits (l : List Char) : ℕ := l.foldl (fun a c => 10 * a + charDigitVal c) 0

/-- Model of JavaScript string `trim()`: strip whitespace at both ends
(list-based so that it evaluates inside the kernel). -/
def jsTrim (s : String) : String :=
  ⟨((s.toList.dropWhile (·.isWhitespace)).reverse.dropWhile (·.isWhitespace)).reverse⟩

/-- Split at the first decimal point: the characters before it, and the
characters after it (`none` when there is no point at all). -/
def splitOnDot : List Char → List Char × Option (List Char)
  | [] => ([], none)
  | c :: cs =>
    if c = '.' then ([], some cs)
    else
      let r := splitOnDot cs
      (c :: r.1, r.2)

/-- Value of an unsigned JavaScript decimal literal body: digits, optionally
with one decimal point, at least one digit overall ("5", "5.", ".5", "5.25");
`none` models `NaN`.  A second point lands among the fraction characters and
fails the digit test. -/
def parseDecBody (l : List Char) : Option ℚ :=
  match splitOnDot l with
  | (ip, none) => if ip ≠ [] ∧ allDigits ip then some (natOfDigits ip) else none
  | (ip, some fp) =>
      if (ip ≠ [] ∨ fp ≠ []) ∧ allDigits ip ∧ allDigits fp then
        some ((natOfDigits ip : ℚ) + (natOfDigits fp : ℚ) / 10 ^ fp.length)
      else none

/-- Model of JavaScript `Number(s)` on the decimal strings this app handles:
whitespace is trimmed, the empty string converts to 0, an optional sign precedes
a decimal literal body, and every other string converts to `NaN` (`none`).
(Exponent, hexadecimal and `Infinity` forms are outside the app's input space.) -/
def jsNumber (s : String) : Option ℚ :=
  match (jsTrim s).toList with
  | [] => some 0
  | '+' :: rest => parseDecBody rest
  | '-' :: rest => (parseDecBody rest).map (fun q => -q)
  | l => parseDecBody l

/-- Longest-digit-prefix helper for `parseFloat`: reads leading digits, then an
optional point followed by more digits; `none` (`NaN`) when no digit was read. -/
def parseFloatCore (l : List Char) : Option ℚ :=
  let ip := l.takeWhile (·.isDigit)
  let r := l.drop ip.length
  let fp := match r with
    | '.' :: r2 => r2.takeWhile (·.isDigit)
    | _ => []
  if ip = [] ∧ fp = [] then none
  else some ((natOfDigits ip : ℚ) + (natOfDigits fp : ℚ) / 10 ^ fp.length)

/-- Model of JavaScript `parseFloat(s)` on decimal strings: trims whitespace,
reads an optional sign and then the longest numeric prefix; yields `NaN`
(`none`) when no digits are present ("", "abc"); trailing junk is ignored
("12abc" parses as 12). -/
def jsParseFloat (s : String) : Option ℚ :=
  match (jsTrim s).toList with
  | '+' :: rest => parseFloatCore rest
  | '-' :: rest => (parseFloatCore rest).map (fun q => -q)
  | l => parseFloatCore l

/-- Digit-prefix helper for `parseInt`. -/
def parseIntCore (l : List Char) : Option ℤ :=
  let ip := l.takeWhile (·.isDigit)
  if ip = [] then none else some (natOfDigits ip : ℤ)

/-- Model of JavaScript `parseInt(s)` (base 10): optional sign then the longest
digit prefix; `none` models `NaN`. -/
def jsParseInt (s : String) : Option ℤ :=
  match (jsTrim s).toList with
  | '+' :: rest => parseIntCore rest
  | '-' :: rest => (parseIntCore rest).map (fun i => -i)
  | l => parseIntCore l

/-- Replace the first comma (only) by a dot, as JavaScript
`String(v).replace(",", ".")` does with a string pattern. -/
def replaceFirstComma : List Char → List Char
  | [] => []
  | c :: cs => if c = ',' then '.' :: cs else c :: replaceFirstComma cs

/-- `String(v).replace(",", ".")` at the `String` level. -/
def commaToDot (s : String) : String := ⟨replaceFirstComma s.toList⟩

/-- JavaScript `x || 0` applied to a number: `NaN` (modelled `none`), `0` and
`-0` all yield `0`; every other number passes through. -/
def jsOrZero (o : Option ℚ) : ℚ :=
  match o with
  | none => 0
  | some v => if v = 0 then 0 else v

/- ===== Data model (tables created by initDb) ===== -/

/-- Row of the `accounts` table. -/
structure Account where
  id : ℕ
  name : String
  institution : String
  atype : String
  deriving DecidableEq

/-- Row of the `categories` table; `is_fixed` is the stored INTEGER (0/1). -/
structure Category where
  id : ℕ
  name : String
  kind : String
  is_fixed : ℤ
  deriving DecidableEq

/-- Row of the `transactions` table.  `amount` is the REAL column, modelled as
an exact rational (SQLite REAL cannot hold NaN: binding NaN stores NULL, which
the NOT NULL constraint rejects, so no stored amount is ever NaN). -/
structure Transaction where
  id : ℕ
  tdate : String
  description : String
  amount : ℚ
  kind : String
  account_id : ℕ
  category_id : Option ℕ
  note : String
  deriving DecidableEq

/-- Row of the `fixed_items` table (recurring-expense template). -/
structure FixedItem where
  id : ℕ
  name : String
  amount : ℚ
  day : ℤ
  category_id : Option ℕ
  deriving DecidableEq

/-- Name of the single seeded account every write resolves. -/
def defaultAccountName : String := "Conta Padrão"

/-- `SELECT id FROM accounts WHERE name = 'Conta Padrão'`, first row. -/
def lookupAccountId (accounts : List Account) : Option ℕ :=
  (accounts.find? (fun a => a.name == defaultAccountName)).map (·.id)

/-- `SELECT id FROM categories WHERE name = ?`, first row. -/
def lookupCategoryId (cats : List Category) (nm : String) : Option ℕ :=
  (cats.find? (fun c => c.name == nm)).map (·.id)

/-- `LEFT JOIN categories c ON c.id = t.category_id`, projecting `c.is_fixed`:
`none` models the SQL NULL produced when the transaction has no category or the
category id does not resolve. -/
def catFixed (cats : List Category) : Option ℕ → Option ℤ
  | none => none
  | some cid => (cats.find? (fun c => c.id == cid)).map (·.is_fixed)

/-- `getSetting`: `SELECT svalue FROM settings WHERE skey=?`, falling back to
the supplied default when no row exists. -/
def getSetting (settings : List (String × String)) (key defv : String) : String :=
  match settings.find? (fun p => p.1 == key) with
  | some p => p.2
  | none => defv

/- ===== Calendar dates and the ISO strings the code builds ===== -/

/-- Gregorian leap-year rule (as implemented by the JS `Date` type). -/
def isLeapYear (y : ℕ) : Bool := y % 4 == 0 && (y % 100 != 0 || y % 400 == 0)

/-- Number of days of month `m` (1-based) of year `y`; this is the day-of-month
of the JS date `new Date(y, m, 0)`. -/
def daysInMonth (y m : ℕ) : ℕ :=
  if m = 2 then (if isLeapYear y then 29 else 28)
  else if m = 4 ∨ m = 6 ∨ m = 9 ∨ m = 11 then 30
  else 31

/-- JavaScript `String(n).padStart(2, "0")` for a natural number. -/
def padStart2Chars (n : ℕ) : List Char :=
  let s := (Nat.repr n).toList
  if s.length < 2 then '0' :: s else s

/-- JavaScript `String(i).padStart(2, "0")` for an integer. -/
def padIntChars (i : ℤ) : List Char :=
  let s := (toString i).toList
  if s.length < 2 then '0' :: s else s

/-- Zero-padded 4-digit year as printed by `Date.toISOString()` for years
0–9999 (the two-2-digit-block decomposition equals the padded decimal form). -/
def pad4Chars (y : ℕ) : List Char := padStart2Chars (y / 100) ++ padStart2Chars (y % 100)

/-- Character list of the `YYYY-MM-DD` prefix of `Date.toISOString()`. -/
def isoChars (y m d : ℕ) : List Char :=
  pad4Chars y ++ '-' :: (padStart2Chars m ++ '-' :: padStart2Chars d)

/-- `toISOString().slice(0, 10)` of a UTC calendar date. -/
def isoDate (y m d : ℕ) : String := ⟨isoChars y m d⟩

/-- Previous calendar day of a `(year, month, day)` triple. -/
def prevDay : ℕ × ℕ × ℕ → ℕ × ℕ × ℕ
  | (y, m, d) =>
    if 1 < d then (y, m, d - 1)
    else if 1 < m then (y, m - 1, daysInMonth y (m - 1))
    else (y - 1, 12, 31)

/-- Next calendar day of a `(year, month, day)` triple. -/
def nextDay : ℕ × ℕ × ℕ → ℕ × ℕ × ℕ
  | (y, m, d) =>
    if d < daysInMonth y m then (y, m, d + 1)
    else if m < 12 then (y, m + 1, 1)
    else (y + 1, 1, 1)

/-- UTC calendar date of local midnight on date `dt` when the local clock runs
`off` minutes ahead of UTC (valid for |off| < 1440, which covers every real
timezone): for `off ≤ 0` the UTC instant falls on the same calendar day, for
`off > 0` it falls on the previous day.  This is what
`new Date(y, m, d).toISOString()` prints, since the JS constructor builds a
local-midnight instant and `toISOString` renders it in UTC. -/
def utcDateOfLocalMidnight (dt : ℕ × ℕ × ℕ) (off : ℤ) : ℕ × ℕ × ℕ :=
  if off ≤ 0 then dt else prevDay dt

/-- ISO string of a date triple. -/
def isoOfTriple (dt : ℕ × ℕ × ℕ) : String := isoDate dt.1 dt.2.1 dt.2.2

/-- Model of `getMonthRangeISO`: month `m` is 1-based here (the source works
with the 0-based `getMonth()` and builds `new Date(y, m0, 1)` and
`new Date(y, m0 + 1, 0)`, i.e. local midnight on the first and on the last day
of the month), then takes `toISOString().slice(0, 10)` of both, which converts
through UTC as captured by `utcDateOfLocalMidnight`. -/
def getMonthRangeISO (y m : ℕ) (off : ℤ) : String × String :=
  (isoOfTriple (utcDateOfLocalMidnight (y, m, 1) off),
   isoOfTriple (utcDateOfLocalMidnight (y, m, daysInMonth y m) off))

/-- Strict bytewise order on character lists; on the ASCII strings this app
stores it coincides with SQLite's BINARY (memcmp) collation used by the
`tdate >= ?` / `tdate <= ?` comparisons. -/
def bytesLt : List Char → List Char → Bool
  | _, [] => false
  | [], _ :: _ => true
  | a :: as, b :: bs =>
    if a.toNat < b.toNat then true
    else if b.toNat < a.toNat then false
    else bytesLt as bs

/-- SQLite TEXT `a <= b` under BINARY collation. -/
def sqliteTextLe (a b : String) : Bool := !(bytesLt b.toList a.toList)

/-- The query filter `WHERE tdate >= start AND tdate <= end`. -/
def inMonthRange (range : String × String) (t : String) : Bool :=
  sqliteTextLe range.1 t && sqliteTextLe t range.2

/- ===== monthSummary ===== -/

/-- Result record of `monthSummary`. -/
structure Summary where
  income : ℚ
  expense : ℚ
  savings : ℚ
  Y : ℚ
  fixedSpent : ℚ
  variableSpent : ℚ
  variableBudget : ℚ
  variableRemaining : ℚ
  deriving DecidableEq

/-- One iteration of the accumulation loop of `monthSummary` over a joined row,
accumulator ordered as (income, expense, fixedSpent, variableSpent): income
adds `amount` on income rows; expense rows add `|amount|` to expense and to
exactly one of fixedSpent (joined `cat_fixed === 1`) or variableSpent. -/
def sumStep (cats : List Category) (acc : ℚ × ℚ × ℚ × ℚ) (t : Transaction) :
    ℚ × ℚ × ℚ × ℚ :=
  let inc := if t.kind == "income" then acc.1 + t.amount else acc.1
  if t.kind == "expense" then
    let v := |t.amount|
    if catFixed cats t.category_id == some 1 then
      (inc, acc.2.1 + v, acc.2.2.1 + v, acc.2.2.2)
    else
      (inc, acc.2.1 + v, acc.2.2.1, acc.2.2.2 + v)
  else (inc, acc.2.1, acc.2.2.1, acc.2.2.2)

/-- The rows returned by the month query of `monthSummary`. -/
def monthRows (store : List Transaction) (y m : ℕ) (off : ℤ) : List Transaction :=
  store.filter (fun t => inMonthRange (getMonthRangeISO y m off) t.tdate)

/-- Model of `monthSummary`: aggregates the current month's rows, reads the
setting `fixed_monthly_budget` (default "0"), computes
`Y = parseFloat(...) || 0`, `variableBudget = max(0, income - Y)` and
`variableRemaining = variableBudget - variableSpent`. -/
def monthSummary (store : List Transaction) (cats : List Category)
    (settings : List (String × String)) (y m : ℕ) (off : ℤ) : Summary :=
  let s := (monthRows store y m off).foldl (sumStep cats) (0, 0, 0, 0)
  let yv := jsOrZero (jsParseFloat (getSetting settings "fixed_monthly_budget" "0"))
  let vb := max 0 (s.1 - yv)
  { income := s.1, expense := s.2.1, savings := s.1 - s.2.1, Y := yv,
    fixedSpent := s.2.2.1, variableSpent := s.2.2.2,
    variableBudget := vb, variableRemaining := vb - s.2.2.2 }

/- ===== Spec-side aggregation sums (for refinement statements) ===== -/

/-- Sum of amounts of income-kind rows (spec wording of `income`). -/
def incomeSum (rows : List Transaction) : ℚ :=
  ((rows.filter (fun t => t.kind == "income")).map (·.amount)).sum

/-- Sum of absolute amounts of expense-kind rows (spec wording of `expense`). -/
def expenseSum (rows : List Transaction) : ℚ :=
  ((rows.filter (fun t => t.kind == "expense")).map (fun t => |t.amount|)).sum

/-- Sum of absolute amounts of expense rows whose joined category is fixed. -/
def fixedSum (cats : List Category) (rows : List Transaction) : ℚ :=
  ((rows.filter (fun t => t.kind == "expense" && catFixed cats t.category_id == some 1)).map
    (fun t => |t.amount|)).sum

/-- Sum of absolute amounts of expense rows whose joined category is not fixed
(including uncategorized rows). -/
def varSum (cats : List Category) (rows : List Transaction) : ℚ :=
  ((rows.filter (fun t => t.kind == "expense" && !(catFixed cats t.category_id == some 1))).map
    (fun t => |t.amount|)).sum

/- ===== Writers ===== -/

/-- Outcome of a write operation, carrying the resulting table state:
`notice` = validation alert shown, nothing executed; `err` = a store statement
rejected (the promise rejects, the awaiting handler stops); `ok` = completed. -/
inductive Outcome (α : Type) where
  | notice (s : α)
  | err (s : α)
  | ok (s : α)
  deriving DecidableEq

/-- AUTOINCREMENT id for the next inserted transaction row. -/
def nextId (store : List Transaction) : ℕ :=
  store.foldl (fun a t => max a t.id) 0 + 1

/-- AUTOINCREMENT id for the next inserted fixed-item row. -/
def nextFixedId (items : List FixedItem) : ℕ :=
  items.foldl (fun a t => max a t.id) 0 + 1

/-- Model of `QuickAdd.submit`: `amount = Number(String(val).replace(",", ".") || 0)`;
if `!amount || !desc.trim()` (amount NaN or 0, or blank description) an alert is
shown and nothing is written; otherwise the default account id and the category
id (null for the empty selection or an unknown name) are resolved and one row is
inserted with amount `-abs` for expense kind, `+abs` otherwise, empty note. -/
def quickAddSubmit (store : List Transaction) (accounts : List Account)
    (cats : List Category) (today desc val kind cat : String) :
    Outcome (List Transaction) :=
  match jsNumber (commaToDot val) with
  | none => .notice store
  | some a =>
    if a = 0 ∨ jsTrim desc = "" then .notice store
    else
      match lookupAccountId accounts with
      | none => .err store
      | some accId =>
        let catId := if cat = "" then none else lookupCategoryId cats cat
        .ok (store ++ [{ id := nextId store, tdate := today,
                         description := jsTrim desc,
                         amount := if kind == "expense" then -|a| else |a|,
                         kind := kind, account_id := accId, category_id := catId,
                         note := "" }])

/-- Model of `Fixos.add`: blank name, value or day shows an alert; a parsed
amount `<= 0` shows an alert; a NaN amount passes the `amount <= 0` test (JS
`NaN <= 0` is false) and the insert then fails at the store (NaN binds as NULL
into the NOT NULL `amount` column), as does a NaN `parseInt(day)`. -/
def fixosAdd (items : List FixedItem) (cats : List Category)
    (name val day cat : String) : Outcome (List FixedItem) :=
  if jsTrim name = "" ∨ val = "" ∨ day = "" then .notice items
  else
    match jsNumber (commaToDot val) with
    | none => .err items
    | some a =>
      if a ≤ 0 then .notice items
      else
        let catId := lookupCategoryId cats cat
        match jsParseInt day with
        | none => .err items
        | some dv =>
          .ok (items ++ [{ id := nextFixedId items, name := jsTrim name,
                           amount := a, day := dv, category_id := catId }])

/-- The transient editing state of the `Historico` screen (`amount` is the raw
text of the value field). -/
structure EditState where
  id : ℕ
  tdate : String
  description : String
  amount : String
  kind : String
  category : String
  deriving DecidableEq

/-- Model of `Historico.saveEdit` followed by `updateTransaction`: only a blank
description or blank date triggers the validation alert; the amount is
`Number(e.amount || 0)` sign-normalized by kind (a NaN amount reaches the
UPDATE, whose NaN-as-NULL binding the NOT NULL column rejects, leaving the
store unchanged); the account is re-resolved by name and the category by name
(silently null when not found); the row with the matching id is updated. -/
def saveEditRun (store : List Transaction) (accounts : List Account)
    (cats : List Category) (e : EditState) : Outcome (List Transaction) :=
  if e.description = "" ∨ e.tdate = "" then .notice store
  else
    match lookupAccountId accounts with
    | none => .err store
    | some accId =>
      let catId := if e.category = "" then none else lookupCategoryId cats e.category
      match (if e.amount = "" then some 0 else jsNumber e.amount) with
      | none => .err store
      | some a =>
        let amt := if e.kind == "expense" then -|a| else |a|
        .ok (store.map (fun t =>
          if t.id == e.id then
            { t with tdate := e.tdate, description := jsTrim e.description,
                     amount := amt, kind := e.kind, account_id := accId,
                     category_id := catId }
          else t))

/- ===== Recurrence generator ===== -/

/-- The tdate string built by `generateMonth`:
`` `${y}-${String(m).padStart(2, "0")}-${String(it.day).padStart(2, "0")}` ``. -/
def gmDate (y m : ℕ) (day : ℤ) : String :=
  ⟨(Nat.repr y).toList ++ '-' :: (padStart2Chars m ++ '-' :: padIntChars day)⟩

/-- The transaction row `generateMonth` inserts for one fixed-item template. -/
def genTx (accId y m txid : ℕ) (it : FixedItem) : Transaction :=
  { id := txid, tdate := gmDate y m it.day, description := it.name,
    amount := -|it.amount|, kind := "expense", account_id := accId,
    category_id := it.category_id, note := "fixo" }

/-- The awaited insertion loop of `generateMonth`; `insOk i` says whether the
store accepts the i-th insert (injected store faults).  A rejected insert makes
the awaited promise throw, so the loop stops with the earlier inserts already
committed (each `execSql` runs in its own store transaction). -/
def genLoop (insOk : ℕ → Bool) (accId y m : ℕ) :
    ℕ → List Transaction → List FixedItem → Outcome (List Transaction)
  | _, store, [] => .ok store
  | i, store, it :: rest =>
    if insOk i then
      genLoop insOk accId y m (i + 1) (store ++ [genTx accId y m (nextId store) it]) rest
    else .err store

/-- The list of rows a fault-free run of the loop appends to `store`. -/
def genTxs (accId y m : ℕ) : List Transaction → List FixedItem → List Transaction
  | _, [] => []
  | store, it :: rest =>
    let t := genTx accId y m (nextId store) it
    t :: genTxs accId y m (store ++ [t]) rest

/-- Model of `Fixos.generateMonth` with injected store faults: resolves the
default account id (`acc.rows.item(0).id` throws when the account is missing,
rejecting before any insert), then runs the insertion loop. -/
def generateMonthWith (insOk : ℕ → Bool) (accounts : List Account)
    (store : List Transaction) (y m : ℕ) (items : List FixedItem) :
    Outcome (List Transaction) :=
  match lookupAccountId accounts with
  | none => .err store
  | some accId => genLoop insOk accId y m 0 store items

/-- Model of `Fixos.generateMonth` on a fault-free store. -/
def generateMonth (accounts : List Account) (store : List Transaction)
    (y m : ℕ) (items : List FixedItem) : Outcome (List Transaction) :=
  generateMonthWith (fun _ => true) accounts store y m items

/-- Field projection of a transaction row without its AUTOINCREMENT id. -/
def txBody (t : Transaction) : String × String × ℚ × String × ℕ × Option ℕ × String :=
  (t.tdate, t.description, t.amount, t.kind, t.account_id, t.category_id, t.note)

/-- Sign invariant a stored row is expected to satisfy. -/
def signOk (t : Transaction) : Prop :=
  (t.kind = "expense" → t.amount ≤ 0) ∧ (t.kind = "income" → 0 ≤ t.amount)

/-- Table state after an operation, whatever its outcome. -/
def outStore {α : Type} : Outcome α → α
  | .notice s => s
  | .err s => s
  | .ok s => s

/- ===== Aggregation lemmas ===== -/

/-- `incomeSum` over a cons. -/
lemma incomeSum_cons (t : Transaction) (ts : List Transaction) :
    incomeSum (t :: ts) =
      (if t.kind == "income" then t.amount else 0) + incomeSum ts := by
  cases hk : (t.kind == "income") <;> simp [incomeSum, List.filter_cons, hk]

/-- `expenseSum` over a cons. -/
lemma expenseSum_cons (t : Transaction) (ts : List Transaction) :
    expenseSum (t :: ts) =
      (if t.kind == "expense" then |t.amount| else 0) + expenseSum ts := by
  cases hk : (t.kind == "expense") <;> simp [expenseSum, List.filter_cons, hk]

/-- `fixedSum` over a cons. -/
lemma fixedSum_cons (cats : List Category) (t : Transaction) (ts : List Transaction) :
    fixedSum cats (t :: ts) =
      (if t.kind == "expense" && catFixed cats t.category_id == some 1
       then |t.amount| else 0) + fixedSum cats ts := by
  cases hk : (t.kind == "expense" && catFixed cats t.category_id == some 1) <;>
    simp [fixedSum, List.filter_cons, hk]

/-- `varSum` over a cons. -/
lemma varSum_cons (cats : List Category) (t : Transaction) (ts : List Transaction) :
    varSum cats (t :: ts) =
      (if t.kind == "expense" && !(catFixed cats t.category_id == some 1)
       then |t.amount| else 0) + varSum cats ts := by
  cases hk : (t.kind == "expense" && !(catFixed cats t.category_id == some 1)) <;>
    simp [varSum, List.filter_cons, hk]

/-- The accumulation loop of `monthSummary` computes exactly the four
spec-side sums, shifted by the starting accumulator. -/
lemma foldl_sumStep (cats : List Category) (rows : List Transaction) :
    ∀ a b c d : ℚ, rows.foldl (sumStep cats) (a, b, c, d) =
      (a + incomeSum rows, b + expenseSum rows,
       c + fixedSum cats rows, d + varSum cats rows) := by
  induction rows with
  | nil => intro a b c d; simp [incomeSum, expenseSum, fixedSum, varSum]
  | cons t ts ih =>
    intro a b c d
    rw [List.foldl_cons]
    rcases hexp : (t.kind == "expense") with _ | _
    · rcases hinc : (t.kind == "income") with _ | _
      · have hstep : sumStep cats (a, b, c, d) t = (a, b, c, d) := by
          simp [sumStep, hexp, hinc]
        rw [hstep, ih, incomeSum_cons, expenseSum_cons, fixedSum_cons, varSum_cons,
            hexp, hinc]
        simp
      · have hstep : sumStep cats (a, b, c, d) t = (a + t.amount, b, c, d) := by
          simp [sumStep, hexp, hinc]
        rw [hstep, ih, incomeSum_cons, expenseSum_cons, fixedSum_cons, varSum_cons,
            hexp, hinc]
        simp
        ring
    · have hinc : (t.kind == "income") = false := by
        rcases h2 : (t.kind == "income") with _ | _
        · rfl
        · exfalso
          rw [beq_iff_eq] at hexp h2
          rw [h2] at hexp
          exact absurd hexp (by decide)
      rcases hfix : (catFixed cats t.category_id == some 1) with _ | _
      · have hstep : sumStep cats (a, b, c, d) t =
            (a, b + |t.amount|, c, d + |t.amount|) := by
          simp [sumStep, hexp, hinc, hfix]
        rw [hstep, ih, incomeSum_cons, expenseSum_cons, fixedSum_cons, varSum_cons,
            hexp, hinc, hfix]
        simp
        constructor
        · ring
        · ring
      · have hstep : sumStep cats (a, b, c, d) t =
            (a, b + |t.amount|, c + |t.amount|, d) := by
          simp [sumStep, hexp, hinc, hfix]
        rw [hstep, ih, incomeSum_cons, expenseSum_cons, fixedSum_cons, varSum_cons,
            hexp, hinc, hfix]
        simp
        constructor
        · ring
        · ring

/-- Every expense row lands in exactly one of the fixed / variable buckets. -/
lemma expenseSum_split (cats : List Category) (rows : List Transaction) :
    expenseSum rows = fixedSum cats rows + varSum cats rows := by
  induction rows with
  | nil => simp [expenseSum, fixedSum, varSum]
  | cons t ts ih =>
    rw [expenseSum_cons, fixedSum_cons, varSum_cons, ih]
    rcases hexp : (t.kind == "expense") with _ | _
    · simp
    · rcases hfix : (catFixed cats t.category_id == some 1) with _ | _ <;> simp <;> ring

/-- Closed form of `monthSummary` in terms of the spec-side sums. -/
lemma monthSummary_eq (store : List Transaction) (cats : List Category)
    (settings : List (String × String)) (y m : ℕ) (off : ℤ) :
    monthSummary store cats settings y m off =
      { income := incomeSum (monthRows store y m off),
        expense := expenseSum (monthRows store y m off),
        savings := incomeSum (monthRows store y m off) -
                   expenseSum (monthRows store y m off),
        Y := jsOrZero (jsParseFloat (getSetting settings "fixed_monthly_budget" "0")),
        fixedSpent := fixedSum cats (monthRows store y m off),
        variableSpent := varSum cats (monthRows store y m off),
        variableBudget := max 0 (incomeSum (monthRows store y m off) -
          jsOrZero (jsParseFloat (getSetting settings "fixed_monthly_budget" "0"))),
        variableRemaining := max 0 (incomeSum (monthRows store y m off) -
            jsOrZero (jsParseFloat (getSetting settings "fixed_monthly_budget" "0"))) -
          varSum cats (monthRows store y m off) } := by
  unfold monthSummary
  rw [foldl_sumStep]
  simp

/-- C1: for every transaction set, category table, settings table and month,
the summary satisfies `savings = income − expense` and
`fixedSpent + variableSpent = expense`, where `income` is the sum of amounts of
income-kind rows, `expense` the sum of absolute amounts of expense-kind rows,
and `fixedSpent` sums only expense rows whose joined category has
`is_fixed = 1` (uncategorized or non-fixed expenses land in `variableSpent`). -/
theorem C1_budget_identity (store : List Transaction) (cats : List Category)
    (settings : List (String × String)) (y m : ℕ) (off : ℤ) :
    (monthSummary store cats settings y m off).savings =
      (monthSummary store cats settings y m off).income -
      (monthSummary store cats settings y m off).expense ∧
    (monthSummary store cats settings y m off).fixedSpent +
      (monthSummary store cats settings y m off).variableSpent =
      (monthSummary store cats settings y m off).expense ∧
    (monthSummary store cats settings y m off).income =
      incomeSum (monthRows store y m off) ∧
    (monthSummary store cats settings y m off).expense =
      expenseSum (monthRows store y m off) ∧
    (monthSummary store cats settings y m off).fixedSpent =
      fixedSum cats (monthRows store y m off) ∧
    (monthSummary store cats settings y m off).variableSpent =
      varSum cats (monthRows store y m off) := by
  rw [monthSummary_eq]
  refine ⟨rfl, ?_, rfl, rfl, rfl, rfl⟩
  exact (expenseSum_split cats (monthRows store y m off)).symm

/-- C2: `variableBudget` is `max(0, income − Y)` for every store and every
setting value (hence never negative), and `variableRemaining` is
`variableBudget − variableSpent` with no clamping; a negative remainder is
reachable. -/
theorem C2_variable_budget (store : List Transaction) (cats : List Category)
    (settings : List (String × String)) (y m : ℕ) (off : ℤ) :
    ((monthSummary store cats settings y m off).variableBudget =
      max 0 ((monthSummary store cats settings y m off).income -
             (monthSummary store cats settings y m off).Y) ∧
     0 ≤ (monthSummary store cats settings y m off).variableBudget ∧
     (monthSummary store cats settings y m off).variableRemaining =
       (monthSummary store cats settings y m off).variableBudget -
       (monthSummary store cats settings y m off).variableSpent) ∧
    (monthSummary [⟨1, "2025-01-07", "mercado", -300, "expense", 1, none, ""⟩]
        [] [] 2025 1 0).variableRemaining < 0 := by
  constructor
  · rw [monthSummary_eq]
    exact ⟨rfl, le_max_left 0 _, rfl⟩
  · have hrows : monthRows [⟨1, "2025-01-07", "mercado", -300, "expense", 1, none, ""⟩]
        2025 1 0 = [⟨1, "2025-01-07", "mercado", -300, "expense", 1, none, ""⟩] := by
      have hcond : inMonthRange (getMonthRangeISO 2025 1 0) "2025-01-07" = true := by decide
      simp [monthRows, List.filter_cons, hcond]
    have hy : jsOrZero (jsParseFloat (getSetting [] "fixed_monthly_budget" "0")) = 0 := by
      simp [getSetting, jsParseFloat, jsTrim, parseFloatCore, natOfDigits, charDigitVal,
        jsOrZero]
    have hinc : incomeSum [⟨1, "2025-01-07", "mercado", -300, "expense", 1, none, ""⟩] = 0 := by
      simp [incomeSum]
    have hvar : varSum [] [⟨1, "2025-01-07", "mercado", -300, "expense", 1, none, ""⟩] = 300 := by
      simp [varSum, catFixed, List.filter_cons]
    rw [monthSummary_eq]
    simp only [hrows, hy, hinc, hvar]
    norm_num

/-- C5: the Y used by `monthSummary` is the numeric value of the
`fixed_monthly_budget` setting, and 0 when the setting row is absent or its
stored string does not parse (`parseFloat` NaN); absence is not an error. -/
theorem C5_setting_default (store : List Transaction) (cats : List Category)
    (settings : List (String × String)) (y m : ℕ) (off : ℤ) :
    (settings.find? (fun p => p.1 == "fixed_monthly_budget") = none →
      (monthSummary store cats settings y m off).Y = 0) ∧
    (∀ p, settings.find? (fun q => q.1 == "fixed_monthly_budget") = some p →
      jsParseFloat p.2 = none →
      (monthSummary store cats settings y m off).Y = 0) ∧
    (∀ p v, settings.find? (fun q => q.1 == "fixed_monthly_budget") = some p →
      jsParseFloat p.2 = some v →
      (monthSummary store cats settings y m off).Y = v) := by
  rw [monthSummary_eq]
  refine ⟨fun h => ?_, fun p h hp => ?_, fun p v h hp => ?_⟩
  · simp only [getSetting, h]
    have h0 : jsParseFloat "0" = some 0 := by
      simp [jsParseFloat, jsTrim, parseFloatCore, natOfDigits, charDigitVal]
    rw [h0]
    simp [jsOrZero]
  · simp only [getSetting, h, hp]
    rfl
  · simp only [getSetting, h, hp, jsOrZero]
    split
    · simpa using (by assumption : v = 0).symm
    · rfl

/-- Closed witness for C5 at concrete settings tables: the three branches
(absent row, non-numeric value, numeric value −40). -/
theorem C5_setting_default_witness :
    (monthSummary [] [] [] 2025 1 0).Y = 0 ∧
    (monthSummary [] [] [("fixed_monthly_budget", "abc")] 2025 1 0).Y = 0 ∧
    (monthSummary [] [] [("fixed_monthly_budget", "-40")] 2025 1 0).Y = -40 := by
  refine ⟨(C5_setting_default [] [] [] 2025 1 0).1 rfl,
    (C5_setting_default [] [] [("fixed_monthly_budget", "abc")] 2025 1 0).2.1
      ("fixed_monthly_budget", "abc") rfl rfl,
    (C5_setting_default [] [] [("fixed_monthly_budget", "-40")] 2025 1 0).2.2
      ("fixed_monthly_budget", "-40") (-40) rfl ?_⟩
  simp [jsParseFloat, jsTrim, parseFloatCore, natOfDigits, charDigitVal]

/-- `incomeSum` distributes over append. -/
lemma incomeSum_append (xs ys : List Transaction) :
    incomeSum (xs ++ ys) = incomeSum xs + incomeSum ys := by
  simp [incomeSum, List.filter_append]

/-- `expenseSum` distributes over append. -/
lemma expenseSum_append (xs ys : List Transaction) :
    expenseSum (xs ++ ys) = expenseSum xs + expenseSum ys := by
  simp [expenseSum, List.filter_append]

/-- `fixedSum` distributes over append. -/
lemma fixedSum_append (cats : List Category) (xs ys : List Transaction) :
    fixedSum cats (xs ++ ys) = fixedSum cats xs + fixedSum cats ys := by
  simp [fixedSum, List.filter_append]

/-- `varSum` distributes over append. -/
lemma varSum_append (cats : List Category) (xs ys : List Transaction) :
    varSum cats (xs ++ ys) = varSum cats xs + varSum cats ys := by
  simp [varSum, List.filter_append]

/-- C10: a transfer-kind transaction dated inside the month changes nothing in
the summary: the aggregation loop only reacts to the income and expense kinds. -/
theorem C10_transfer_neutral (store : List Transaction) (cats : List Category)
    (settings : List (String × String)) (y m : ℕ) (off : ℤ) (t : Transaction)
    (hk : t.kind = "transfer")
    (hin : inMonthRange (getMonthRangeISO y m off) t.tdate = true) :
    monthSummary (store ++ [t]) cats settings y m off =
      monthSummary store cats settings y m off := by
  have hki : (t.kind == "income") = false := by rw [hk]; rfl
  have hke : (t.kind == "expense") = false := by rw [hk]; rfl
  have hrows : monthRows (store ++ [t]) y m off = monthRows store y m off ++ [t] := by
    simp [monthRows, List.filter_append, List.filter_cons, hin]
  have h1 : incomeSum [t] = 0 := by simp [incomeSum, List.filter_cons, hki]
  have h2 : expenseSum [t] = 0 := by simp [expenseSum, List.filter_cons, hke]
  have h3 : fixedSum cats [t] = 0 := by simp [fixedSum, List.filter_cons, hke]
  have h4 : varSum cats [t] = 0 := by simp [varSum, List.filter_cons, hke]
  rw [monthSummary_eq, monthSummary_eq, hrows, incomeSum_append, expenseSum_append,
    fixedSum_append, varSum_append, h1, h2, h3, h4]
  simp

/-- Closed witness for C10: appending a concrete in-month transfer leaves the
summary of a concrete store unchanged. -/
theorem C10_transfer_neutral_witness :
    monthSummary ([⟨1, "2025-01-05", "sal", 5000, "income", 1, none, ""⟩] ++
        [⟨2, "2025-01-09", "mov", -70, "transfer", 1, none, ""⟩]) [] [] 2025 1 0 =
      monthSummary [⟨1, "2025-01-05", "sal", 5000, "income", 1, none, ""⟩] [] [] 2025 1 0 :=
  C10_transfer_neutral [⟨1, "2025-01-05", "sal", 5000, "income", 1, none, ""⟩] [] [] 2025 1 0
    ⟨2, "2025-01-09", "mov", -70, "transfer", 1, none, ""⟩ rfl (by decide)

/- ===== Generator lemmas ===== -/

/-- A fault-free insertion loop completes and appends `genTxs`. -/
lemma genLoop_ok (insOk : ℕ → Bool) (accId y m : ℕ) :
    ∀ (items : List FixedItem) (i : ℕ) (store : List Transaction),
      (∀ j, j < items.length → insOk (i + j) = true) →
      genLoop insOk accId y m i store items = .ok (store ++ genTxs accId y m store items) := by
  intro items
  induction items with
  | nil => intro i store _; simp [genLoop, genTxs]
  | cons it rest ih =>
    intro i store h
    have h0 : insOk i = true := by simpa using h 0 (by simp)
    rw [genLoop, if_pos h0,
      ih (i + 1) (store ++ [genTx accId y m (nextId store) it])
        (fun j hj => by
          have := h (j + 1) (by simpa using Nat.succ_lt_succ hj)
          simpa [Nat.add_assoc, Nat.add_comm 1 j] using this)]
    rw [genTxs]
    simp

/-- `generateMonth` on a fault-free store appends exactly `genTxs`. -/
lemma generateMonth_eq (accounts : List Account) (store : List Transaction)
    (y m : ℕ) (items : List FixedItem) (accId : ℕ)
    (h : lookupAccountId accounts = some accId) :
    generateMonth accounts store y m items =
      .ok (store ++ genTxs accId y m store items) := by
  unfold generateMonth generateMonthWith
  rw [h]
  exact genLoop_ok _ accId y m items 0 store (fun j _ => rfl)

/-- One generated row per template. -/
lemma genTxs_length (accId y m : ℕ) :
    ∀ (items : List FixedItem) (store : List Transaction),
      (genTxs accId y m store items).length = items.length := by
  intro items
  induction items with
  | nil => intro store; simp [genTxs]
  | cons it rest ih => intro store; rw [genTxs]; simp [ih]

/-- Field-level contract of the generated rows: the i-th generated row carries
the tdate built from the i-th template's day, its name, `-abs(amount)`,
expense kind, the resolved account, the template's category and note "fixo". -/
lemma genTxs_body (accId y m : ℕ) :
    ∀ (items : List FixedItem) (store : List Transaction),
      (genTxs accId y m store items).map txBody =
        items.map (fun it =>
          (gmDate y m it.day, it.name, -|it.amount|, "expense", accId,
           it.category_id, "fixo")) := by
  intro items
  induction items with
  | nil => intro store; simp [genTxs]
  | cons it rest ih =>
    intro store
    rw [genTxs]
    simp only [List.map_cons, ih]
    rfl

/-- Every generated row carries the marker note "fixo". -/
lemma genTxs_note (accId y m : ℕ) :
    ∀ (items : List FixedItem) (store : List Transaction),
      ∀ t ∈ genTxs accId y m store items, t.note = "fixo" := by
  intro items
  induction items with
  | nil => intro store t ht; simp [genTxs] at ht
  | cons it rest ih =>
    intro store t ht
    rw [genTxs] at ht
    rcases (List.mem_cons).1 ht with h | h
    · rw [h]; rfl
    · exact ih _ t h

/-- C3 (amended): one invocation of the generator inserts exactly one
transaction per template, and the i-th inserted row has
amount = −abs(amountᵢ), kind = expense, the template's category and name,
note = "fixo" (the code's marker string), the generated month date and the
default account id. -/
theorem C3_generation_contract (accounts : List Account) (store : List Transaction)
    (y m : ℕ) (items : List FixedItem) (accId : ℕ)
    (h : lookupAccountId accounts = some accId) :
    ∃ gen, generateMonth accounts store y m items = .ok (store ++ gen) ∧
      gen.length = items.length ∧
      gen.map txBody = items.map (fun it =>
        (gmDate y m it.day, it.name, -|it.amount|, "expense", accId,
         it.category_id, "fixo")) :=
  ⟨genTxs accId y m store items, generateMonth_eq accounts store y m items accId h,
    genTxs_length accId y m items store, genTxs_body accId y m items store⟩

/-- Closed witness for C3: a concrete one-template run. -/
theorem C3_generation_contract_witness :
    ∃ gen : List Transaction,
      generateMonth [⟨1, "Conta Padrão", "Manual", "other"⟩] [] 2025 5
        [⟨1, "Internet", 100, 10, some 2⟩] = .ok ([] ++ gen) ∧
      gen.length = ([⟨1, "Internet", 100, 10, some 2⟩] : List FixedItem).length ∧
      gen.map txBody = ([⟨1, "Internet", 100, 10, some 2⟩] : List FixedItem).map (fun it =>
        (gmDate 2025 5 it.day, it.name, -|it.amount|, "expense", 1,
         it.category_id, "fixo")) :=
  C3_generation_contract [⟨1, "Conta Padrão", "Manual", "other"⟩] [] 2025 5
    [⟨1, "Internet", 100, 10, some 2⟩] 1 (by decide)

/-- C3 counterexample to the claim as stated: the marker note the code writes
is the literal "fixo", not "fixed" — the single generated row of a concrete
run carries note "fixo". -/
theorem C3_note_counterexample :
    (outStore (generateMonth [⟨1, "Conta Padrão", "Manual", "other"⟩] [] 2025 5
        [⟨1, "Internet", 100, 10, some 2⟩])).map (fun t => t.note) = ["fixo"] ∧
    ("fixo" : String) ≠ "fixed" := by
  constructor
  · rw [generateMonth_eq _ _ 2025 5 _ 1 (by decide)]
    rfl
  · decide

/-- C4: generation is not idempotent — running the generator twice in the same
month appends the generated rows twice: the final store holds
`store.length + 2·N` rows and the count of note-"fixo" rows grows by `2·N`;
nothing deduplicates the second batch. -/
theorem C4_not_idempotent (accounts : List Account) (store : List Transaction)
    (y m : ℕ) (items : List FixedItem) (accId : ℕ)
    (h : lookupAccountId accounts = some accId) :
    ∃ s1 s2 : List Transaction,
      generateMonth accounts store y m items = .ok s1 ∧
      generateMonth accounts s1 y m items = .ok s2 ∧
      s1 = store ++ genTxs accId y m store items ∧
      s2 = s1 ++ genTxs accId y m s1 items ∧
      s2.length = store.length + 2 * items.length ∧
      (s2.filter (fun t => t.note == "fixo")).length =
        (store.filter (fun t => t.note == "fixo")).length + 2 * items.length := by
  refine ⟨store ++ genTxs accId y m store items,
    (store ++ genTxs accId y m store items) ++
      genTxs accId y m (store ++ genTxs accId y m store items) items,
    generateMonth_eq accounts store y m items accId h,
    generateMonth_eq accounts _ y m items accId h, rfl, rfl, ?_, ?_⟩
  · simp [genTxs_length]
    ring
  · have hfix : ∀ (st : List Transaction),
        (genTxs accId y m st items).filter (fun t => t.note == "fixo") =
          genTxs accId y m st items := by
      intro st
      apply List.filter_eq_self.mpr
      intro t ht
      simpa using genTxs_note accId y m items st t ht
    simp [List.filter_append, hfix, genTxs_length]
    ring

/-- Closed witness for C4: a concrete double run over one template yields two
duplicate generated rows. -/
theorem C4_not_idempotent_witness :
    ∃ s1 s2 : List Transaction,
      generateMonth [⟨1, "Conta Padrão", "Manual", "other"⟩] [] 2025 5
        [⟨1, "Internet", 100, 10, some 2⟩] = .ok s1 ∧
      generateMonth [⟨1, "Conta Padrão", "Manual", "other"⟩] s1 2025 5
        [⟨1, "Internet", 100, 10, some 2⟩] = .ok s2 ∧
      s1 = [] ++ genTxs 1 2025 5 [] [⟨1, "Internet", 100, 10, some 2⟩] ∧
      s2 = s1 ++ genTxs 1 2025 5 s1 [⟨1, "Internet", 100, 10, some 2⟩] ∧
      s2.length = ([] : List Transaction).length +
        2 * ([⟨1, "Internet", 100, 10, some 2⟩] : List FixedItem).length ∧
      (s2.filter (fun t => t.note == "fixo")).length =
        (([] : List Transaction).filter (fun t => t.note == "fixo")).length +
        2 * ([⟨1, "Internet", 100, 10, some 2⟩] : List FixedItem).length :=
  C4_not_idempotent [⟨1, "Conta Padrão", "Manual", "other"⟩] [] 2025 5
    [⟨1, "Internet", 100, 10, some 2⟩] 1 (by decide)

/-- A loop whose first failure is at (0-based) index `k` commits exactly the
rows generated from the first `k` templates and then stops with an error. -/
lemma genLoop_err (insOk : ℕ → Bool) (accId y m : ℕ) :
    ∀ (items : List FixedItem) (i k : ℕ) (store : List Transaction),
      k < items.length →
      (∀ j, j < k → insOk (i + j) = true) →
      insOk (i + k) = false →
      genLoop insOk accId y m i store items =
        .err (store ++ genTxs accId y m store (items.take k)) := by
  intro items
  induction items with
  | nil => intro i k store hk _ _; exact absurd hk (by simp)
  | cons it rest ih =>
    intro i k store hk hok hfail
    cases k with
    | zero =>
      have h0 : insOk i = false := by simpa using hfail
      rw [genLoop, if_neg (by simp [h0])]
      simp [genTxs]
    | succ k2 =>
      have h0 : insOk i = true := by simpa using hok 0 (Nat.succ_pos k2)
      rw [genLoop, if_pos h0,
        ih (i + 1) k2 (store ++ [genTx accId y m (nextId store) it])
          (by simpa using Nat.lt_of_succ_lt_succ hk)
          (fun j hj => by
            have := hok (j + 1) (Nat.succ_lt_succ hj)
            simpa [Nat.add_assoc, Nat.add_comm 1 j] using this)
          (by
            have := hfail
            simpa [Nat.add_assoc, Nat.add_comm 1 k2] using this)]
      rw [List.take_succ_cons, genTxs]
      simp

/-- C9: generation is not atomic across the batch — when the store rejects the
insert of the (k+1)-th template (0-based index k) after accepting the previous
ones, the operation ends in error with exactly the rows of the first k
templates committed and nothing inserted for the templates from index k on. -/
theorem C9_partial_commit (accounts : List Account) (store : List Transaction)
    (y m : ℕ) (items : List FixedItem) (insOk : ℕ → Bool) (k accId : ℕ)
    (h : lookupAccountId accounts = some accId)
    (hk : k < items.length)
    (hok : ∀ j, j < k → insOk j = true)
    (hfail : insOk k = false) :
    generateMonthWith insOk accounts store y m items =
      .err (store ++ genTxs accId y m store (items.take k)) := by
  unfold generateMonthWith
  rw [h]
  exact genLoop_err insOk accId y m items 0 k store hk
    (fun j hj => by simpa using hok j hj) (by simpa using hfail)

/-- Closed witness for C9: with three templates and the store failing on the
third insert, exactly the first two generated rows remain committed. -/
theorem C9_partial_commit_witness :
    generateMonthWith (fun i => decide (i < 2))
      [⟨1, "Conta Padrão", "Manual", "other"⟩] [] 2025 5
      [⟨1, "Internet", 100, 10, some 2⟩, ⟨2, "Energia", 80, 12, some 3⟩,
       ⟨3, "Aluguel", 900, 5, some 1⟩] =
      .err ([] ++ genTxs 1 2025 5 []
        (([⟨1, "Internet", 100, 10, some 2⟩, ⟨2, "Energia", 80, 12, some 3⟩,
           ⟨3, "Aluguel", 900, 5, some 1⟩] : List FixedItem).take 2)) :=
  C9_partial_commit [⟨1, "Conta Padrão", "Manual", "other"⟩] [] 2025 5
    [⟨1, "Internet", 100, 10, some 2⟩, ⟨2, "Energia", 80, 12, some 3⟩,
     ⟨3, "Aluguel", 900, 5, some 1⟩] (fun i => decide (i < 2)) 2 1
    (by decide) (by decide) (fun j hj => by simp; omega) (by decide)

/- ===== Sign invariant ===== -/

/-- A row whose amount was sign-normalized from `a` by its kind satisfies the
sign invariant. -/
lemma signOk_of_kind_amount (t : Transaction) (k : String) (a : ℚ)
    (hk : t.kind = k) (ha : t.amount = if k == "expense" then -|a| else |a|) :
    signOk t := by
  constructor
  · intro hexp
    have hk2 : k = "expense" := by rw [← hk]; exact hexp
    rw [ha, hk2]
    have hb : (("expense" : String) == "expense") = true := rfl
    rw [hb, if_pos rfl]
    exact neg_nonpos.mpr (abs_nonneg a)
  · intro hinc
    have hk2 : k = "income" := by rw [← hk]; exact hinc
    rw [ha, hk2]
    have hb : (("income" : String) == "expense") = false := rfl
    rw [hb, if_neg Bool.false_ne_true]
    exact abs_nonneg a

/-- Rows present after `QuickAdd.submit` are either pre-existing or
sign-normalized. -/
lemma quickAdd_mem (store : List Transaction) (accounts : List Account)
    (cats : List Category) (today desc val kind cat : String) :
    ∀ t ∈ outStore (quickAddSubmit store accounts cats today desc val kind cat),
      t ∈ store ∨ signOk t := by
  intro t ht
  unfold quickAddSubmit at ht
  split at ht
  · exact Or.inl (by simpa [outStore] using ht)
  · next a hn =>
    split at ht
    · exact Or.inl (by simpa [outStore] using ht)
    · split at ht
      · exact Or.inl (by simpa [outStore] using ht)
      · next accId hl =>
        simp only [outStore] at ht
        rcases List.mem_append.1 ht with h | h
        · exact Or.inl h
        · right
          have heq := List.mem_singleton.1 h
          exact signOk_of_kind_amount t kind a (by rw [heq]) (by rw [heq])

/-- Rows present after `Historico.saveEdit` are either pre-existing or
sign-normalized. -/
lemma saveEdit_mem (store : List Transaction) (accounts : List Account)
    (cats : List Category) (e : EditState) :
    ∀ t ∈ outStore (saveEditRun store accounts cats e), t ∈ store ∨ signOk t := by
  intro t ht
  unfold saveEditRun at ht
  repeat' split at ht
  all_goals try exact Or.inl (by simpa [outStore] using ht)
  all_goals
    (rename_i v heq2 hkind
     simp only [outStore] at ht
     rcases List.mem_map.1 ht with ⟨t0, ht0, hmap⟩
     by_cases hid : (t0.id == e.id) = true
     · rw [if_pos hid] at hmap
       refine Or.inr (signOk_of_kind_amount t e.kind v ?_ ?_)
       · rw [← hmap]
       · rw [← hmap]
         first
           | rw [if_pos hkind]
           | rw [if_neg (by simp [hkind])]
     · rw [if_neg hid] at hmap
       rw [← hmap]
       exact Or.inl ht0)

/-- Rows present after any prefix of the generation loop are either
pre-existing or sign-normalized (generated rows are expense rows holding
`-abs(amount)`). -/
lemma genLoop_mem (insOk : ℕ → Bool) (accId y m : ℕ) :
    ∀ (items : List FixedItem) (i : ℕ) (store : List Transaction)
      (t : Transaction),
      t ∈ outStore (genLoop insOk accId y m i store items) →
      t ∈ store ∨ signOk t := by
  intro items
  induction items with
  | nil => intro i store t ht; exact Or.inl (by simpa [genLoop, outStore] using ht)
  | cons it rest ih =>
    intro i store t ht
    rw [genLoop] at ht
    by_cases h0 : insOk i = true
    · rw [if_pos h0] at ht
      rcases ih (i + 1) _ t ht with h | h
      · rcases List.mem_append.1 h with h2 | h2
        · exact Or.inl h2
        · right
          have heq := List.mem_singleton.1 h2
          rw [heq]
          refine ⟨fun _ => neg_nonpos.mpr (abs_nonneg _), fun hinc => ?_⟩
          rw [show (genTx accId y m (nextId store) it).kind = "expense" from rfl] at hinc
          exact absurd hinc (by decide)
      · exact Or.inr h
    · rw [if_neg h0] at ht
      exact Or.inl (by simpa [outStore] using ht)

/-- C7: sign invariant — every row present after any writer runs (quick-add,
transaction edit, recurrence generation, whatever the outcome) is either a
pre-existing row or satisfies amount ≤ 0 for expense kind and amount ≥ 0 for
income kind; in particular every newly written row is sign-normalized. -/
theorem C7_sign_invariant :
    (∀ (store : List Transaction) (accounts : List Account) (cats : List Category)
       (today desc val kind cat : String) (t : Transaction),
       t ∈ outStore (quickAddSubmit store accounts cats today desc val kind cat) →
       t ∈ store ∨ signOk t) ∧
    (∀ (store : List Transaction) (accounts : List Account) (cats : List Category)
       (e : EditState) (t : Transaction),
       t ∈ outStore (saveEditRun store accounts cats e) → t ∈ store ∨ signOk t) ∧
    (∀ (insOk : ℕ → Bool) (accounts : List Account) (store : List Transaction)
       (y m : ℕ) (items : List FixedItem) (t : Transaction),
       t ∈ outStore (generateMonthWith insOk accounts store y m items) →
       t ∈ store ∨ signOk t) := by
  refine ⟨fun store accounts cats today desc val kind cat t ht =>
      quickAdd_mem store accounts cats today desc val kind cat t ht,
    fun store accounts cats e t ht => saveEdit_mem store accounts cats e t ht,
    fun insOk accounts store y m items t ht => ?_⟩
  unfold generateMonthWith at ht
  cases hl : lookupAccountId accounts with
  | none => rw [hl] at ht; exact Or.inl (by simpa [outStore] using ht)
  | some accId =>
    rw [hl] at ht
    exact genLoop_mem insOk accId y m items 0 store t ht

/-- Closed witness for C7: the row written by a concrete quick-add expense
submission satisfies the sign invariant. -/
theorem C7_sign_invariant_witness :
    (⟨2, "2025-01-02", "x", -5, "expense", 1, none, ""⟩ : Transaction) ∈
      ([⟨1, "2025-01-05", "sal", 5000, "income", 1, none, ""⟩] : List Transaction) ∨
    signOk ⟨2, "2025-01-02", "x", -5, "expense", 1, none, ""⟩ :=
  C7_sign_invariant.1 [⟨1, "2025-01-05", "sal", 5000, "income", 1, none, ""⟩]
    [⟨1, "Conta Padrão", "Manual", "other"⟩] [] "2025-01-02" "x" "5" "expense" ""
    ⟨2, "2025-01-02", "x", -5, "expense", 1, none, ""⟩ (by decide)

/- ===== Validation behavior ===== -/

/-- C6 counterexample to the claim as stated: a transaction edit whose amount
field is the string "0" (a zero amount) is not aborted — `saveEdit` only
validates description and date — and the store row is rewritten with amount 0,
so the store changes. -/
theorem C6_validation_counterexample :
    saveEditRun [⟨1, "2025-01-02", "x", -5, "expense", 1, none, ""⟩]
        [⟨1, "Conta Padrão", "Manual", "other"⟩] []
        ⟨1, "2025-01-02", "x", "0", "expense", ""⟩ =
      .ok [⟨1, "2025-01-02", "x", 0, "expense", 1, none, ""⟩] ∧
    ([⟨1, "2025-01-02", "x", 0, "expense", 1, none, ""⟩] : List Transaction) ≠
      [⟨1, "2025-01-02", "x", -5, "expense", 1, none, ""⟩] := by
  constructor <;> decide

/-- C6 (amended): the validation alerts that do exist abort with a notice and
leave the table unchanged — quick-add on NaN or zero amount or blank
description; fixed-item add on blank name, value or day, and on a parsed
amount ≤ 0; transaction edit only on blank description or blank date (a zero
amount passes the edit validation, see the counterexample). -/
theorem C6_validation_aborts :
    (∀ (store : List Transaction) (accounts : List Account) (cats : List Category)
       (today desc val kind cat : String),
       jsNumber (commaToDot val) = none ∨ jsNumber (commaToDot val) = some 0 ∨
         jsTrim desc = "" →
       quickAddSubmit store accounts cats today desc val kind cat = .notice store) ∧
    (∀ (items : List FixedItem) (cats : List Category) (name val day cat : String),
       jsTrim name = "" ∨ val = "" ∨ day = "" →
       fixosAdd items cats name val day cat = .notice items) ∧
    (∀ (items : List FixedItem) (cats : List Category) (name val day cat : String)
       (a : ℚ),
       jsTrim name ≠ "" → val ≠ "" → day ≠ "" →
       jsNumber (commaToDot val) = some a → a ≤ 0 →
       fixosAdd items cats name val day cat = .notice items) ∧
    (∀ (store : List Transaction) (accounts : List Account) (cats : List Category)
       (e : EditState),
       e.description = "" ∨ e.tdate = "" →
       saveEditRun store accounts cats e = .notice store) := by
  refine ⟨fun store accounts cats today desc val kind cat h => ?_,
    fun items cats name val day cat h => ?_,
    fun items cats name val day cat a h1 h2 h3 hp ha => ?_,
    fun store accounts cats e h => ?_⟩
  · unfold quickAddSubmit
    rcases h with hn | h0 | hd
    · rw [hn]
    · rw [h0]
      simp
    · cases hn : jsNumber (commaToDot val) with
      | none => rfl
      | some a =>
        simp only []
        rw [if_pos (Or.inr hd)]
  · unfold fixosAdd
    rw [if_pos h]
  · unfold fixosAdd
    rw [if_neg (by simp [h1, h2, h3]), hp]
    simp only []
    rw [if_pos ha]
  · unfold saveEditRun
    rw [if_pos h]

/-- Closed witness for C6 (amended): concrete aborted submissions of each
validated shape, all returning the notice outcome with the table untouched. -/
theorem C6_validation_aborts_witness :
    quickAddSubmit [] [] [] "2025-01-02" "" "5" "expense" "" = .notice [] ∧
    fixosAdd [] [] "" "5" "3" "" = .notice [] ∧
    fixosAdd [] [] "Internet" "-5" "3" "" = .notice [] ∧
    saveEditRun [] [] [] ⟨1, "", "x", "5", "expense", ""⟩ = .notice [] :=
  ⟨C6_validation_aborts.1 [] [] [] "2025-01-02" "" "5" "expense" ""
      (Or.inr (Or.inr rfl)),
   C6_validation_aborts.2.1 [] [] "" "5" "3" "" (Or.inl rfl),
   C6_validation_aborts.2.2.1 [] [] "Internet" "-5" "3" "" (-5) (by decide)
      (by decide) (by decide) (by decide) (by decide),
   C6_validation_aborts.2.2.2 [] [] [] ⟨1, "", "x", "5", "expense", ""⟩
      (Or.inr rfl)⟩

/- ===== Ordering of ISO date strings under the BINARY collation ===== -/

/-- Characters with equal codepoints are equal. -/
lemma char_eq_of_toNat {a b : Char} (h : a.toNat = b.toNat) : a = b :=
  Char.ext (UInt32.ext h)

/-- `bytesLt` ignores an equal leading character. -/
lemma bytesLt_cons_same (c : Char) (as bs : List Char) :
    bytesLt (c :: as) (c :: bs) = bytesLt as bs := by
  simp [bytesLt]

/-- Bytewise comparison of equal-length blocks followed by tails. -/
lemma bytesLt_append (as : List Char) :
    ∀ (bs : List Char), as.length = bs.length → ∀ (cs ds : List Char),
      bytesLt (as ++ cs) (bs ++ ds) =
        (bytesLt as bs || (decide (as = bs) && bytesLt cs ds)) := by
  induction as with
  | nil =>
    intro bs h cs ds
    cases bs with
    | nil => simp [bytesLt]
    | cons b bs2 => simp at h
  | cons a as2 ih =>
    intro bs h cs ds
    cases bs with
    | nil => simp at h
    | cons b bs2 =>
      simp only [List.cons_append]
      by_cases hab : a.toNat < b.toNat
      · simp [bytesLt, hab]
      · by_cases hba : b.toNat < a.toNat
        · have hne : decide (a :: as2 = b :: bs2) = false := by
            apply decide_eq_false
            intro hcontra
            rw [List.cons.injEq] at hcontra
            rw [hcontra.1] at hba
            exact Nat.lt_irrefl _ hba
          have hL : bytesLt (a :: (as2 ++ cs)) (b :: (bs2 ++ ds)) = false := by
            simp [bytesLt, hab, hba]
          have hR : bytesLt (a :: as2) (b :: bs2) = false := by
            simp [bytesLt, hab, hba]
          rw [hL, hR, hne]
          simp
        · have heq : a = b :=
            char_eq_of_toNat (Nat.le_antisymm (Nat.le_of_not_lt hba)
              (Nat.le_of_not_lt hab))
          subst heq
          rw [bytesLt_cons_same, bytesLt_cons_same,
            ih bs2 (by simpa using h) cs ds]
          have hdec : decide (a :: as2 = a :: bs2) = decide (as2 = bs2) := by
            apply decide_eq_decide.mpr
            simp
          rw [hdec]

set_option maxRecDepth 40000

/-- The two-character pad has length 2 below 100. -/
lemma pad2_len : ∀ a : ℕ, a < 100 → (padStart2Chars a).length = 2 := by decide

/-- Bytewise order of two-digit pads is numeric order below 100. -/
lemma pad2_lt : ∀ a : ℕ, a < 100 → ∀ b : ℕ, b < 100 →
    bytesLt (padStart2Chars a) (padStart2Chars b) = decide (a < b) := by decide

/-- Equality of two-digit pads is numeric equality below 100. -/
lemma pad2_eqb : ∀ a : ℕ, a < 100 → ∀ b : ℕ, b < 100 →
    decide (padStart2Chars a = padStart2Chars b) = decide (a = b) := by decide

/-- The padded year has four characters below 10000. -/
lemma pad4_len (y : ℕ) (h : y < 10000) : (pad4Chars y).length = 4 := by
  unfold pad4Chars
  rw [List.length_append, pad2_len _ ((Nat.div_lt_iff_lt_mul (by norm_num)).mpr
    (by omega)), pad2_len _ (Nat.mod_lt _ (by norm_num))]

/-- Bytewise order of padded years is numeric order below 10000. -/
lemma pad4_lt (y1 y2 : ℕ) (h1 : y1 < 10000) (h2 : y2 < 10000) :
    bytesLt (pad4Chars y1) (pad4Chars y2) = decide (y1 < y2) := by
  unfold pad4Chars
  rw [bytesLt_append _ _ (by
    rw [pad2_len _ ((Nat.div_lt_iff_lt_mul (by norm_num)).mpr (by omega)),
      pad2_len _ ((Nat.div_lt_iff_lt_mul (by norm_num)).mpr (by omega))])]
  rw [pad2_lt _ ((Nat.div_lt_iff_lt_mul (by norm_num)).mpr (by omega))
      _ ((Nat.div_lt_iff_lt_mul (by norm_num)).mpr (by omega)),
    pad2_eqb _ ((Nat.div_lt_iff_lt_mul (by norm_num)).mpr (by omega))
      _ ((Nat.div_lt_iff_lt_mul (by norm_num)).mpr (by omega)),
    pad2_lt _ (Nat.mod_lt _ (by norm_num)) _ (Nat.mod_lt _ (by norm_num))]
  by_cases h : y1 < y2
  · rw [decide_eq_true h]
    have hsplit : y1 / 100 < y2 / 100 ∨ (y1 / 100 = y2 / 100 ∧ y1 % 100 < y2 % 100) := by
      omega
    rcases hsplit with hlt | ⟨heq, hm⟩
    · rw [decide_eq_true hlt]
      simp
    · rw [decide_eq_true heq, decide_eq_true hm]
      simp
  · rw [decide_eq_false h]
    have hd : ¬(y1 / 100 < y2 / 100) := by omega
    rw [decide_eq_false hd]
    by_cases heq : y1 / 100 = y2 / 100
    · have hm : ¬(y1 % 100 < y2 % 100) := by omega
      rw [decide_eq_true heq, decide_eq_false hm]
      simp
    · rw [decide_eq_false heq]
      simp

/-- Equality of padded years is numeric equality below 10000. -/
lemma pad4_eqb (y1 y2 : ℕ) (h1 : y1 < 10000) (h2 : y2 < 10000) :
    decide (pad4Chars y1 = pad4Chars y2) = decide (y1 = y2) := by
  unfold pad4Chars
  have hlen : (padStart2Chars (y1 / 100)).length = (padStart2Chars (y2 / 100)).length := by
    rw [pad2_len _ ((Nat.div_lt_iff_lt_mul (by norm_num)).mpr (by omega)),
      pad2_len _ ((Nat.div_lt_iff_lt_mul (by norm_num)).mpr (by omega))]
  have happ : (padStart2Chars (y1 / 100) ++ padStart2Chars (y1 % 100) =
      padStart2Chars (y2 / 100) ++ padStart2Chars (y2 % 100)) ↔
      (padStart2Chars (y1 / 100) = padStart2Chars (y2 / 100) ∧
       padStart2Chars (y1 % 100) = padStart2Chars (y2 % 100)) := by
    constructor
    · intro h
      exact List.append_inj h hlen
    · intro h
      rw [h.1, h.2]
  rw [decide_eq_decide.mpr happ]
  by_cases h : y1 = y2
  · subst h
    have hself : (padStart2Chars (y1 / 100) = padStart2Chars (y1 / 100) ∧
        padStart2Chars (y1 % 100) = padStart2Chars (y1 % 100)) := ⟨rfl, rfl⟩
    rw [decide_eq_true hself, decide_eq_true (rfl : y1 = y1)]
  · rw [decide_eq_false h]
    apply decide_eq_false
    intro hcontra
    have hd : y1 / 100 = y2 / 100 := by
      have := decide_eq_true hcontra.1
      rw [pad2_eqb _ ((Nat.div_lt_iff_lt_mul (by norm_num)).mpr (by omega))
        _ ((Nat.div_lt_iff_lt_mul (by norm_num)).mpr (by omega))] at this
      exact of_decide_eq_true this
    have hmod : y1 % 100 = y2 % 100 := by
      have := decide_eq_true hcontra.2
      rw [pad2_eqb _ (Nat.mod_lt _ (by norm_num))
        _ (Nat.mod_lt _ (by norm_num))] at this
      exact of_decide_eq_true this
    omega

/-- Bytewise order of full ISO date strings is lexicographic numeric order of
(year, month, day) in the 4-digit-year range. -/
lemma bytesLt_iso (y1 m1 d1 y2 m2 d2 : ℕ)
    (hy1 : y1 < 10000) (hy2 : y2 < 10000) (hm1 : m1 < 100) (hm2 : m2 < 100)
    (hd1 : d1 < 100) (hd2 : d2 < 100) :
    bytesLt (isoChars y1 m1 d1) (isoChars y2 m2 d2) =
      (decide (y1 < y2) || (decide (y1 = y2) &&
        (decide (m1 < m2) || (decide (m1 = m2) && decide (d1 < d2))))) := by
  unfold isoChars
  rw [bytesLt_append _ _ (by rw [pad4_len _ hy1, pad4_len _ hy2]),
    pad4_lt _ _ hy1 hy2, pad4_eqb _ _ hy1 hy2, bytesLt_cons_same,
    bytesLt_append _ _ (by rw [pad2_len _ hm1, pad2_len _ hm2]),
    pad2_lt _ hm1 _ hm2, pad2_eqb _ hm1 _ hm2, bytesLt_cons_same,
    pad2_lt _ hd1 _ hd2]

/-- `toList` of a literal-built string. -/
lemma toList_mk (l : List Char) : (String.mk l).toList = l := rfl

/-- SQLite `a <= b` between ISO date strings decides the lexicographic
(year, month, day) order. -/
lemma iso_le_iff (y1 m1 d1 y2 m2 d2 : ℕ)
    (hy1 : y1 < 10000) (hy2 : y2 < 10000) (hm1 : m1 < 100) (hm2 : m2 < 100)
    (hd1 : d1 < 100) (hd2 : d2 < 100) :
    sqliteTextLe (isoDate y1 m1 d1) (isoDate y2 m2 d2) = true ↔
      (y1 < y2 ∨ (y1 = y2 ∧ (m1 < m2 ∨ (m1 = m2 ∧ d1 ≤ d2)))) := by
  unfold sqliteTextLe isoDate
  rw [toList_mk, toList_mk,
    bytesLt_iso y2 m2 d2 y1 m1 d1 hy2 hy1 hm2 hm1 hd2 hd1]
  simp only [Bool.not_eq_true', Bool.or_eq_false_iff, Bool.and_eq_false_iff,
    decide_eq_false_iff_not, decide_eq_true_eq]
  omega

/-- Unfolding equation of `prevDay` on a triple. -/
lemma prevDay_def (y m d : ℕ) :
    prevDay (y, m, d) =
      if 1 < d then (y, m, d - 1)
      else if 1 < m then (y, m - 1, daysInMonth y (m - 1))
      else (y - 1, 12, 31) := rfl

/-- Unfolding equation of `nextDay` on a triple. -/
lemma nextDay_def (y m d : ℕ) :
    nextDay (y, m, d) =
      if d < daysInMonth y m then (y, m, d + 1)
      else if m < 12 then (y, m + 1, 1)
      else (y + 1, 1, 1) := rfl

/-- Every month length lies between 1 and 31. -/
lemma daysInMonth_bounds (y m : ℕ) :
    1 ≤ daysInMonth y m ∧ daysInMonth y m ≤ 31 := by
  unfold daysInMonth
  split_ifs <;> omega

/-- C8 counterexample to the claim as stated: with a device clock one hour
ahead of UTC (offset +60 minutes) in January 2025, the computed range is
("2024-12-31", "2025-01-30") rather than the calendar month, and a transaction
dated on the last calendar day 2025-01-31 is excluded from the aggregation. -/
theorem C8_month_range_counterexample :
    inMonthRange (getMonthRangeISO 2025 1 60) (isoDate 2025 1 31) = false ∧
    getMonthRangeISO 2025 1 60 ≠ (isoDate 2025 1 1, isoDate 2025 1 31) := by
  constructor <;> decide

/-- C8 (amended): provided the device UTC offset is zero or negative (local
clock not ahead of UTC, as in the app's Brazilian locale), the range used by
`monthSummary` is the inclusive calendar month: it equals
[first day, last day], every day of the month passes the SQL date filter, and
the day before the first and the day after the last are excluded. -/
theorem C8_month_range_exact (y m : ℕ) (off : ℤ)
    (hy1 : 1000 ≤ y) (hy2 : y ≤ 9998) (hm1 : 1 ≤ m) (hm2 : m ≤ 12)
    (_hoff1 : -1440 < off) (hoff2 : off ≤ 0) :
    getMonthRangeISO y m off = (isoDate y m 1, isoDate y m (daysInMonth y m)) ∧
    (∀ d, 1 ≤ d → d ≤ daysInMonth y m →
      inMonthRange (getMonthRangeISO y m off) (isoDate y m d) = true) ∧
    inMonthRange (getMonthRangeISO y m off)
      (isoOfTriple (prevDay (y, m, 1))) = false ∧
    inMonthRange (getMonthRangeISO y m off)
      (isoOfTriple (nextDay (y, m, daysInMonth y m))) = false := by
  obtain ⟨hdim1, hdim2⟩ := daysInMonth_bounds y m
  have hrange : getMonthRangeISO y m off =
      (isoDate y m 1, isoDate y m (daysInMonth y m)) := by
    unfold getMonthRangeISO utcDateOfLocalMidnight
    rw [if_pos hoff2, if_pos hoff2]
    rfl
  refine ⟨hrange, fun d hd1 hd2 => ?_, ?_, ?_⟩
  · rw [hrange]
    unfold inMonthRange
    rw [Bool.and_eq_true]
    constructor
    · exact (iso_le_iff y m 1 y m d (by omega) (by omega) (by omega) (by omega)
        (by omega) (by omega)).mpr (by omega)
    · exact (iso_le_iff y m d y m (daysInMonth y m) (by omega) (by omega)
        (by omega) (by omega) (by omega) (by omega)).mpr (by omega)
  · rw [hrange]
    show (sqliteTextLe (isoDate y m 1) (isoOfTriple (prevDay (y, m, 1))) &&
      sqliteTextLe (isoOfTriple (prevDay (y, m, 1)))
        (isoDate y m (daysInMonth y m))) = false
    rw [prevDay_def, if_neg (by omega)]
    by_cases hm : 1 < m
    · rw [if_pos hm]
      obtain ⟨hp1, hp2⟩ := daysInMonth_bounds y (m - 1)
      have hfirst : sqliteTextLe (isoDate y m 1)
          (isoDate y (m - 1) (daysInMonth y (m - 1))) = false := by
        rw [Bool.eq_false_iff]
        intro hcontra
        have := (iso_le_iff y m 1 y (m - 1) (daysInMonth y (m - 1)) (by omega)
          (by omega) (by omega) (by omega) (by omega) (by omega)).mp hcontra
        omega
      rw [show isoOfTriple (y, m - 1, daysInMonth y (m - 1)) =
          isoDate y (m - 1) (daysInMonth y (m - 1)) from rfl,
        hfirst, Bool.false_and]
    · rw [if_neg hm]
      have hfirst : sqliteTextLe (isoDate y m 1)
          (isoDate (y - 1) 12 31) = false := by
        rw [Bool.eq_false_iff]
        intro hcontra
        have := (iso_le_iff y m 1 (y - 1) 12 31 (by omega) (by omega) (by omega)
          (by omega) (by omega) (by omega)).mp hcontra
        omega
      rw [show isoOfTriple (y - 1, 12, 31) = isoDate (y - 1) 12 31 from rfl,
        hfirst, Bool.false_and]
  · rw [hrange]
    show (sqliteTextLe (isoDate y m 1)
        (isoOfTriple (nextDay (y, m, daysInMonth y m))) &&
      sqliteTextLe (isoOfTriple (nextDay (y, m, daysInMonth y m)))
        (isoDate y m (daysInMonth y m))) = false
    rw [nextDay_def, if_neg (by omega)]
    by_cases hm : m < 12
    · rw [if_pos hm]
      have hlast : sqliteTextLe (isoDate y (m + 1) 1)
          (isoDate y m (daysInMonth y m)) = false := by
        rw [Bool.eq_false_iff]
        intro hcontra
        have := (iso_le_iff y (m + 1) 1 y m (daysInMonth y m) (by omega)
          (by omega) (by omega) (by omega) (by omega) (by omega)).mp hcontra
        omega
      rw [show isoOfTriple (y, m + 1, 1) = isoDate y (m + 1) 1 from rfl,
        hlast, Bool.and_false]
    · rw [if_neg hm]
      have hlast : sqliteTextLe (isoDate (y + 1) 1 1)
          (isoDate y m (daysInMonth y m)) = false := by
        rw [Bool.eq_false_iff]
        intro hcontra
        have := (iso_le_iff (y + 1) 1 1 y m (daysInMonth y m) (by omega)
          (by omega) (by omega) (by omega) (by omega) (by omega)).mp hcontra
        omega
      rw [show isoOfTriple (y + 1, 1, 1) = isoDate (y + 1) 1 1 from rfl,
        hlast, Bool.and_false]

/-- Closed witness for C8 (amended) at the Brazilian offset (−180 minutes),
May 2025: the range is the calendar month, the last day is included, and the
neighbors on both sides are excluded. -/
theorem C8_month_range_exact_witness :
    getMonthRangeISO 2025 5 (-180) = (isoDate 2025 5 1, isoDate 2025 5 31) ∧
    inMonthRange (getMonthRangeISO 2025 5 (-180)) (isoDate 2025 5 31) = true ∧
    inMonthRange (getMonthRangeISO 2025 5 (-180))
      (isoOfTriple (prevDay (2025, 5, 1))) = false ∧
    inMonthRange (getMonthRangeISO 2025 5 (-180))
      (isoOfTriple (nextDay (2025, 5, 31))) = false := by
  have h := C8_month_range_exact 2025 5 (-180) (by decide) (by decide) (by decide)
    (by decide) (by decide) (by decide)
  refine ⟨?_, ?_, h.2.2.1, ?_⟩
  · have := h.1
    simpa using this
  · have := h.2.1 31 (by decide) (by decide)
    simpa using this
  · have := h.2.2.2
    simpa using this

end Finance
